import Mathlib

/-!
A shallow embedding, in Lean, of the form-filling engine of
`google_form_bot.py`: the sampling helpers (`_normalize`, `weighted_choice`,
`weighted_sample_unique`, `random_k_for_checkbox`), the answer generator
(`build_prob_answers`), the field fillers (`select_radio`,
`select_checkboxes`, `select_linear_scale_permutation`,
`select_linear_scale_from_dict`) and the page sequencer (`run_bot`).

Modelling conventions:
* Float arithmetic of the source is modelled by exact rationals (`ℚ`).
* The global random source (`random.random()`) is modelled as an explicit
  stream `g : ℕ → ℚ` of draws together with a running index; a draw is
  assumed to lie in `[0, 1)` where a theorem needs it.
* `math.sqrt` (used inside `random.triangular`) is the one irrational
  operation; it is passed as an oracle `sqrtA : ℚ → ℚ`, constrained in
  theorems by the bounds actually used (`x ∈ [0,1] → sqrtA x ∈ [0,1]`).
* Browser state (checked checkboxes, question regions, matrix rows) is
  modelled as explicit data, and the clicks the bot performs are returned
  as values instead of being side effects.
-/

namespace FormBot

/-- Helper for `pyDictKeys`: keys already seen are skipped. -/
def pyDictKeysAux (seen : List String) : List String → List String
  | [] => []
  | k :: rest =>
    if k ∈ seen then pyDictKeysAux seen rest
    else k :: pyDictKeysAux (k :: seen) rest

/-- The key list of a Python dict built by a comprehension
`{opt: f opt for opt in options}`: first occurrences, in encounter order. -/
def pyDictKeys (l : List String) : List String := pyDictKeysAux [] l

/-- `_normalize` (source lines 214-220): clamps each weight at `0`, then
divides by the total; if the total is `≤ 0`, assigns everyone `1/n`. -/
def _normalize (weights : List (String × ℚ)) : List (String × ℚ) :=
  let items := weights.map (fun kv => (kv.1, max 0 kv.2))
  let s := (items.map Prod.snd).sum
  if s ≤ 0 then
    items.map (fun kv => (kv.1, (1 : ℚ) / items.length))
  else
    items.map (fun kv => (kv.1, kv.2 / s))

/-- The accumulation loop of `weighted_choice`: returns the first entry
whose cumulative probability reaches the draw `r`, or `none` if the list
is exhausted. -/
def wcLoop (r : ℚ) : ℚ → List (String × ℚ) → Option String
  | _, [] => none
  | acc, (c, p) :: rest => if r ≤ acc + p then some c else wcLoop r (acc + p) rest

/-- `weighted_choice` (source lines 222-230) with the draw `r` (the value of
`random.random()`) passed explicitly.  The weight map is modelled as a total
function `String → ℚ` (`weights_map.get(opt, 0.0)` makes absent keys `0`).
The dict comprehension `{opt: weights_map.get(opt, 0.0) for opt in options}`
keeps the first occurrence of each option, in order (`pyDictKeys`).
`choices[-1]` is the fallback when the loop exhausts the list. -/
def weighted_choice (r : ℚ) (options : List String) (weights_map : String → ℚ) : String :=
  let items := _normalize ((pyDictKeys options).map (fun o => (o, weights_map o)))
  match wcLoop r 0 items with
  | some c => c
  | none => (items.map Prod.fst).getLastD ""

/-- The selection loop of `weighted_sample_unique`: `k` rounds, each drawing
one option by `weighted_choice` (consuming one stream draw) and removing it
from the remaining pool; stops early if the pool empties.  Returns the
selection together with the next unused stream index. -/
def weighted_sample_unique_go (g : ℕ → ℚ) (weights_map : String → ℚ) :
    ℕ → ℕ → List String → List String × ℕ
  | 0, n, _ => ([], n)
  | k + 1, n, remaining =>
    if remaining.isEmpty then ([], n)
    else
      let pick := weighted_choice (g n) remaining weights_map
      let res := weighted_sample_unique_go g weights_map k (n + 1) (remaining.erase pick)
      (pick :: res.1, res.2)

/-- `weighted_sample_unique` (source lines 232-242): clamps `k` by
`max(0, min(k, len(options)))`, then draws that many distinct options. -/
def weighted_sample_unique (g : ℕ → ℚ) (n : ℕ) (options : List String)
    (weights_map : String → ℚ) (k : ℤ) : List String × ℕ :=
  weighted_sample_unique_go g weights_map
    (max 0 (min k (options.length : ℤ))).toNat n options

/-- Python's built-in `round`: nearest integer, ties to the even integer. -/
def pyRound (q : ℚ) : ℤ :=
  let f := ⌊q⌋
  let r := q - f
  if r < 1 / 2 then f
  else if 1 / 2 < r then f + 1
  else if Even f then f else f + 1

/-- CPython's `random.triangular(low, high, mode)` with the uniform draw `u`
and the square root passed explicitly.  A `ZeroDivisionError` on
`(mode - low) / (high - low)` is caught and yields `low`; when `u > c` the
draw is reflected and the bounds swapped before the final formula. -/
def pyTriangular (sqrtA : ℚ → ℚ) (low high mode u : ℚ) : ℚ :=
  if high = low then low
  else
    let c := (mode - low) / (high - low)
    if c < u then high + (low - high) * sqrtA ((1 - u) * (1 - c))
    else low + (high - low) * sqrtA (u * c)

/-- `random_k_for_checkbox` (source lines 244-245):
`int(round(random.triangular(min_k, max_k, min_k)))`, consuming one draw. -/
def random_k_for_checkbox (sqrtA : ℚ → ℚ) (g : ℕ → ℚ) (n : ℕ)
    (min_k max_k : ℕ) : ℤ × ℕ :=
  (pyRound (pyTriangular sqrtA min_k max_k min_k (g n)), n + 1)

/-! ### The embedded answer catalog and weight tables (source lines 145-208) -/

def OPTS_semestre : List String :=
  ["1 - 3", "4 - 5", "6 - 9", "10 - 15", "Egresado / Profesional"]

def OPTS_herramientas : List String :=
  ["Packet Tracer", "GNS3", "EVE-NG", "Wireshark", "Snort", "Matlab", "Ninguno"]

def OPTS_so_virtualizados_main : List String :=
  ["Ubuntu LTS (Desktop/Server)", "Debian", "Kali Linux",
   "Windows Server 2019/2022", "pfSense (firewall/router)"]

def OPTS_impedimentos_main : List String :=
  ["Bajo rendimiento del equipo (CPU/RAM/disco; el programa se congela o va lento)",
   "Sistema operativo/versión no compatible (Windows/macOS/Linux/ARM)",
   "Drivers o dependencias faltantes (.NET/Java/SDKs, controladores de GPU/red)",
   "Virtualización/Docker/WSL no funcionan (VT-x/AMD-V desactivado, errores de arranque)",
   "Restricciones de red/seguridad (antivirus, firewall, VPN o internet inestable)"]

def OPTS_tipo_equipo : List String :=
  ["Laptop (Portátil)", "Computadora de escritorio (Desktop)"]

def OPTS_cpu : List String := ["Intel", "AMD", "Apple (Serie M)"]

def OPTS_ram : List String := ["4GB o menos", "8 GB", "16 GB", "32 GB o más"]

def OPTS_tipo_almacenamiento : List String :=
  ["Disco de Estado Sólido (SSD)", "Disco duro Mecánico (HDD)", "Híbrido (SSD + HDD)"]

def OPTS_capacidad : List String := ["256 GB o menos", "512 GB", "1 TB", "Más de 1 TB"]

def OPTS_gpu : List String := ["Integrados", "Dedicados"]

def OPTS_preferencia : List String := ["Servicios en la nube", "Computadora personal"]

/-- `WEIGHTS["semestre"]` as a lookup function (absent keys weigh `0`). -/
def WEIGHTS_semestre : String → ℚ := fun o =>
  if o = "6 - 9" then 60 / 100
  else if o = "10 - 15" then 18 / 100
  else if o = "1 - 3" then 10 / 100
  else if o = "4 - 5" then 8 / 100
  else if o = "Egresado / Profesional" then 4 / 100
  else 0

/-- `WEIGHTS["herramientas"]` as a lookup function. -/
def WEIGHTS_herramientas : String → ℚ := fun o =>
  if o = "Matlab" then 35 / 100
  else if o = "Packet Tracer" then 23 / 100
  else if o = "Wireshark" then 19 / 100
  else if o = "GNS3" then 4 / 100
  else if o = "Snort" then 4 / 100
  else if o = "EVE-NG" then 2 / 100
  else if o = "Ninguno" then 3 / 100
  else 0

/-- `WEIGHTS["so_virtualizados_main"]` as a lookup function. -/
def WEIGHTS_so_virtualizados_main : String → ℚ := fun o =>
  if o = "Ubuntu LTS (Desktop/Server)" then 35 / 100
  else if o = "Kali Linux" then 25 / 100
  else if o = "Debian" then 15 / 100
  else if o = "Windows Server 2019/2022" then 20 / 100
  else if o = "pfSense (firewall/router)" then 5 / 100
  else 0

/-- `WEIGHTS["impedimentos_main"]` as a lookup function. -/
def WEIGHTS_impedimentos_main : String → ℚ := fun o =>
  if o = "Bajo rendimiento del equipo (CPU/RAM/disco; el programa se congela o va lento)" then 35 / 100
  else if o = "Sistema operativo/versión no compatible (Windows/macOS/Linux/ARM)" then 20 / 100
  else if o = "Drivers o dependencias faltantes (.NET/Java/SDKs, controladores de GPU/red)" then 25 / 100
  else if o = "Virtualización/Docker/WSL no funcionan (VT-x/AMD-V desactivado, errores de arranque)" then 10 / 100
  else if o = "Restricciones de red/seguridad (antivirus, firewall, VPN o internet inestable)" then 10 / 100
  else 0

/-- `WEIGHTS["tipo_equipo"]` as a lookup function. -/
def WEIGHTS_tipo_equipo : String → ℚ := fun o =>
  if o = "Laptop (Portátil)" then 80 / 100
  else if o = "Computadora de escritorio (Desktop)" then 20 / 100
  else 0

/-- `WEIGHTS["cpu"]` as a lookup function. -/
def WEIGHTS_cpu : String → ℚ := fun o =>
  if o = "Intel" then 75 / 100
  else if o = "AMD" then 18 / 100
  else if o = "Apple (Serie M)" then 7 / 100
  else 0

/-- `WEIGHTS["ram"]` as a lookup function. -/
def WEIGHTS_ram : String → ℚ := fun o =>
  if o = "4GB o menos" then 15 / 100
  else if o = "8 GB" then 40 / 100
  else if o = "16 GB" then 35 / 100
  else if o = "32 GB o más" then 10 / 100
  else 0

/-- `WEIGHTS["tipo_almacenamiento"]` as a lookup function. -/
def WEIGHTS_tipo_almacenamiento : String → ℚ := fun o =>
  if o = "Disco de Estado Sólido (SSD)" then 80 / 100
  else if o = "Disco duro Mecánico (HDD)" then 15 / 100
  else if o = "Híbrido (SSD + HDD)" then 5 / 100
  else 0

/-- `WEIGHTS["capacidad"]` as a lookup function. -/
def WEIGHTS_capacidad : String → ℚ := fun o =>
  if o = "256 GB o menos" then 25 / 100
  else if o = "512 GB" then 35 / 100
  else if o = "1 TB" then 30 / 100
  else if o = "Más de 1 TB" then 10 / 100
  else 0

/-- `WEIGHTS["gpu"]` as a lookup function. -/
def WEIGHTS_gpu : String → ℚ := fun o =>
  if o = "Integrados" then 70 / 100
  else if o = "Dedicados" then 30 / 100
  else 0

/-- `WEIGHTS["preferencia"]` as a lookup function. -/
def WEIGHTS_preferencia : String → ℚ := fun o =>
  if o = "Servicios en la nube" then 60 / 100
  else if o = "Computadora personal" then 40 / 100
  else 0

/-- `P_NO_VIRTUALIZA` (source line 208). -/
def P_NO_VIRTUALIZA : ℚ := 18 / 100

/-! ### The answer document (§3 AnswerDocument; dict keys become `Option` fields,
`none` meaning the key is absent) -/

structure Page1 where
  semestre : Option String
  herramientas : Option (List String)
  so_virtualizados : Option (List String)
  impedimentos : Option (List String)
deriving DecidableEq

structure Page2 where
  tipo_equipo : Option String
  cpu : Option String
  ram : Option String
  tipo_almacenamiento : Option String
  capacidad_almacenamiento : Option String
  gpu : Option String
deriving DecidableEq

structure Page3 where
  preferencia : Option String
  beneficios_permutar : Option Bool
  beneficios : Option (List (String × ℤ))
  preocupaciones_permutar : Option Bool
  preocupaciones : Option (List (String × ℤ))
deriving DecidableEq

structure AnswerDoc where
  page1 : Page1
  page2 : Page2
  page3 : Page3
deriving DecidableEq

/-- The `herramientas` block of `build_prob_answers` (source lines 255-260):
with probability `WEIGHTS["herramientas"]["Ninguno"]` the exclusive answer
`["Ninguno"]`, otherwise a weighted sample of `k ∈ [2, min(4, |pool|)]`
tools from the pool without `"Ninguno"`.  Returns the chosen list and the
next unused draw index (the branch test consumes the draw at index 1). -/
def build_herramientas (sqrtA : ℚ → ℚ) (g : ℕ → ℚ) : List String × ℕ :=
  if g 1 < WEIGHTS_herramientas "Ninguno" then (["Ninguno"], 2)
  else
    let pool := OPTS_herramientas.filter (fun h => h ≠ "Ninguno")
    let kn := random_k_for_checkbox sqrtA g 2 2 (min 4 pool.length)
    weighted_sample_unique g kn.2 pool WEIGHTS_herramientas kn.1

/-- The `so_virtualizados` block of `build_prob_answers` (source lines
262-267): with probability `P_NO_VIRTUALIZA` the exclusive answer
`["No uso virtualización"]`, otherwise a weighted sample of
`k ∈ [2, min(3, |pool|)]` systems. -/
def build_so_virtualizados (sqrtA : ℚ → ℚ) (g : ℕ → ℚ) (n2 : ℕ) : List String × ℕ :=
  if g n2 < P_NO_VIRTUALIZA then (["No uso virtualización"], n2 + 1)
  else
    let pool := OPTS_so_virtualizados_main
    let kn := random_k_for_checkbox sqrtA g (n2 + 1) 2 (min 3 pool.length)
    weighted_sample_unique g kn.2 pool WEIGHTS_so_virtualizados_main kn.1

/-- The `impedimentos` block of `build_prob_answers` (source lines 269-271):
a weighted sample of `k ∈ [2, min(3, |pool|)]` impediments, unconditionally. -/
def build_impedimentos (sqrtA : ℚ → ℚ) (g : ℕ → ℚ) (n3 : ℕ) : List String × ℕ :=
  let kn := random_k_for_checkbox sqrtA g n3 2 (min 3 OPTS_impedimentos_main.length)
  weighted_sample_unique g kn.2 OPTS_impedimentos_main WEIGHTS_impedimentos_main kn.1

/-- `build_prob_answers` (source lines 251-297), with the random stream `g`
and the square-root oracle threaded through; draws are consumed strictly in
the source's evaluation order, the index of the next unused draw being
passed along. -/
def build_prob_answers (sqrtA : ℚ → ℚ) (g : ℕ → ℚ) : AnswerDoc :=
  let semestre := weighted_choice (g 0) OPTS_semestre WEIGHTS_semestre
  let hRes := build_herramientas sqrtA g
  let herramientas := hRes.1
  let n2 := hRes.2
  let sRes := build_so_virtualizados sqrtA g n2
  let so_virtualizados := sRes.1
  let n3 := sRes.2
  let iRes := build_impedimentos sqrtA g n3
  let impedimentos := iRes.1
  let n4 := iRes.2
  { page1 :=
      { semestre := some semestre
        herramientas := some herramientas
        so_virtualizados := some so_virtualizados
        impedimentos := some impedimentos }
    page2 :=
      { tipo_equipo := some (weighted_choice (g n4) OPTS_tipo_equipo WEIGHTS_tipo_equipo)
        cpu := some (weighted_choice (g (n4 + 1)) OPTS_cpu WEIGHTS_cpu)
        ram := some (weighted_choice (g (n4 + 2)) OPTS_ram WEIGHTS_ram)
        tipo_almacenamiento :=
          some (weighted_choice (g (n4 + 3)) OPTS_tipo_almacenamiento WEIGHTS_tipo_almacenamiento)
        capacidad_almacenamiento :=
          some (weighted_choice (g (n4 + 4)) OPTS_capacidad WEIGHTS_capacidad)
        gpu := some (weighted_choice (g (n4 + 5)) OPTS_gpu WEIGHTS_gpu) }
    page3 :=
      { preferencia := some (weighted_choice (g (n4 + 6)) OPTS_preferencia WEIGHTS_preferencia)
        beneficios_permutar := some true
        beneficios := none
        preocupaciones_permutar := some true
        preocupaciones := none } }

/-! ### Locator resolver and field fillers -/

/-- The fatal `RuntimeError`s the field fillers raise. -/
inductive FormError where
  | NotFound (question : String)
  | NoRows (group : String)
  | NoColumns (group : String)
deriving DecidableEq

/-- A listitem-like region of the rendered page, identified by the text it
contains. -/
structure Region where
  text : String
deriving DecidableEq

/-- Whether `pat` occurs as a contiguous substring of `s`: the semantics of
the non-exact Playwright text match `get_by_text(title_substr, exact=False)`
that `_section_by_title` filters with. -/
def textContains (s pat : String) : Bool :=
  (List.range (s.data.length + 1)).any (fun i => pat.data.isPrefixOf (s.data.drop i))

/-- `_section_by_title` (source lines 54-57): the first `listitem` region
whose text contains `title_substr`; `none` when there is no match (the
Playwright locator then has `count() == 0`). -/
def _section_by_title (page : List Region) (title_substr : String) : Option Region :=
  (page.filter (fun r => textContains r.text title_substr)).head?

/-- `select_radio` (source lines 59-67): raises `NotFound` when the question
block cannot be located, otherwise clicks the choice inside the first
matching region (the click is returned as the pair region/choice). -/
def select_radio (page : List Region) (question_title choice_text : String) :
    Except FormError (Region × String) :=
  match _section_by_title page question_title with
  | none => .error (.NotFound question_title)
  | some cont => .ok (cont, choice_text)

/-- The `aria-checked` attribute value the checkbox control for `label`
exposes, given the block state `s` (checked status per option label). -/
def ariaChecked (s : String → Bool) (label : String) : String :=
  if s label then "true" else "false"

/-- The per-choice loop of `select_checkboxes` (source lines 73-84), on a
located question block whose checkbox state is `s`: for each choice, read
`aria-checked` and click only when it is not already `"true"`; a click
toggles that checkbox.  Returns the clicks performed and the final state. -/
def select_checkboxes : List String → (String → Bool) → List String × (String → Bool)
  | [], s => ([], s)
  | choice :: rest, s =>
    let already := ariaChecked s choice = "true"
    if already then select_checkboxes rest s
    else
      let s' := fun l => if l = choice then !(s l) else s l
      let res := select_checkboxes rest s'
      (choice :: res.1, res.2)

/-- `select_linear_scale_permutation` (source lines 91-116) on a located
matrix block.  The block is `rows`, one entry per `radiogroup` row giving
that row's radio count; `columns` is the result of
`random.shuffle(list(range(col_count)))`, passed in explicitly.  On success
the clicks are returned as pairs (row index, clicked column index). -/
def select_linear_scale_permutation (columns : List ℕ) (group_title : String)
    (rows : List ℕ) : Except FormError (List (ℕ × ℕ)) :=
  let row_count := rows.length
  if row_count = 0 then .error (.NoRows group_title)
  else
    let col_count := rows.headD 0
    if col_count = 0 then .error (.NoColumns group_title)
    else .ok ((List.range row_count).map (fun i => (i, columns.getD (i % col_count) 0)))

/-- The per-row index computation of `select_linear_scale_from_dict`
(source line 135): `idx = max(0, min(value - 1, col_count - 1))`, in
Python's integer arithmetic. -/
def scaleFromDictIdx (value : ℤ) (col_count : ℕ) : ℤ :=
  max 0 (min (value - 1) ((col_count : ℤ) - 1))

/-- `select_linear_scale_from_dict` (source lines 118-139) on a located
matrix block: for each (row label, value) pair the row is located by label
and the clamped column index is clicked; `colOf` gives each located row's
radio count.  The clicks are returned as (row label, column index) pairs. -/
def select_linear_scale_from_dict (rows_to_values : List (String × ℤ))
    (colOf : String → ℕ) : List (String × ℤ) :=
  rows_to_values.map (fun rv => (rv.1, scaleFromDictIdx rv.2 (colOf rv.1)))

/-! ### Page sequencer (`run_bot`, source lines 303-380)

The browser interactions are modelled as an event trace; `wait_idle`,
pauses, screenshots and logging have no observable effect on the form and
are omitted. -/

/-- One browser interaction performed by `run_bot`. -/
inductive Ev where
  | radio (title choice : String)
  | checks (title : String) (choices : List String)
  | scalePerm (title : String)
  | scaleDict (title : String) (vals : List (String × ℤ))
  | next
  | submit
deriving DecidableEq

/-- Question titles used by `run_bot` (source lines 318-374). -/
def T_semestre : String := "¿En qué semestre te encuentras?"

def T_herramientas : String := "¿Qué herramientas usas hoy para prácticas?"

def T_so : String := "¿Qué sistemas operativos virtualizas en tu equipo personal?"

def T_impedimentos : String :=
  "¿qué es lo que falla o te impide usarlos correctamente en tu equipo personal?"

def T_tipo_equipo : String := "¿Qué tipo de equipo utilizar"

def T_cpu : String := "¿Con qué procesador cuenta tu equipo"

def T_ram : String := "¿Con cuánta memoria RAM"

def T_tipo_almacenamiento : String := "¿Cuál es el tipo de almacenamiento principal"

def T_capacidad : String := "¿Cuál es la capacidad total de memoria principal aproximada"

def T_gpu : String := "¿Con qué tipo de gráficos cuenta tu equipo principal"

def T_preferencia : String := "¿Prefieres utilizar un servicio"

def T_beneficios : String := "¿Qué beneficios considera más importantes"

def T_preocupaciones : String := "¿Qué preocupaciones le genera el uso"

/-- The event an absent key contributes (`none`, nothing) or a present key
contributes (one application). -/
def optE {α : Type} (f : α → Ev) : Option α → List Ev
  | some a => [f a]
  | none => []

/-- Python truthiness of the `page1` dict: empty iff every key is absent. -/
def Page1.isEmptyB (p : Page1) : Bool :=
  p.semestre.isNone && p.herramientas.isNone &&
  p.so_virtualizados.isNone && p.impedimentos.isNone

/-- Python truthiness of the `page2` dict. -/
def Page2.isEmptyB (p : Page2) : Bool :=
  p.tipo_equipo.isNone && p.cpu.isNone && p.ram.isNone &&
  p.tipo_almacenamiento.isNone && p.capacidad_almacenamiento.isNone && p.gpu.isNone

/-- Python truthiness of the `page3` dict. -/
def Page3.isEmptyB (p : Page3) : Bool :=
  p.preferencia.isNone && p.beneficios_permutar.isNone && p.beneficios.isNone &&
  p.preocupaciones_permutar.isNone && p.preocupaciones.isNone

/-- The `if p1:` body of `run_bot` (source lines 317-327). -/
def page1Body (p : Page1) : List Ev :=
  optE (Ev.radio T_semestre) p.semestre
  ++ optE (Ev.checks T_herramientas) p.herramientas
  ++ optE (Ev.checks T_so) p.so_virtualizados
  ++ optE (Ev.checks T_impedimentos) p.impedimentos

/-- The `if p2:` body of `run_bot` (source lines 333-350). -/
def page2Body (p : Page2) : List Ev :=
  optE (Ev.radio T_tipo_equipo) p.tipo_equipo
  ++ optE (Ev.radio T_cpu) p.cpu
  ++ optE (Ev.radio T_ram) p.ram
  ++ optE (Ev.radio T_tipo_almacenamiento) p.tipo_almacenamiento
  ++ optE (Ev.radio T_capacidad) p.capacidad_almacenamiento
  ++ optE (Ev.radio T_gpu) p.gpu

/-- One matrix application of the `if p3:` body (source lines 360-374):
permutation mode when the `_permutar` flag (defaulting to `True`) is set, or
when no explicit dict is given; otherwise explicit values. -/
def matrixEv (title : String) (permutar : Option Bool)
    (explicit : Option (List (String × ℤ))) : Ev :=
  if permutar.getD true then Ev.scalePerm title
  else
    match explicit with
    | some d => Ev.scaleDict title d
    | none => Ev.scalePerm title

/-- The `if p3:` body of `run_bot` (source lines 356-374). -/
def page3Body (p : Page3) : List Ev :=
  optE (Ev.radio T_preferencia) p.preferencia
  ++ [matrixEv T_beneficios p.beneficios_permutar p.beneficios]
  ++ [matrixEv T_preocupaciones p.preocupaciones_permutar p.preocupaciones]

/-- `run_bot` (source lines 303-380) as the trace of interactions it
performs on the mock page: each page's body runs only when the page dict is
truthy, `click_next` follows pages 1 and 2 unconditionally, and
`click_submit` ends the run. -/
def run_bot (d : AnswerDoc) : List Ev :=
  (if d.page1.isEmptyB then [] else page1Body d.page1)
  ++ [Ev.next]
  ++ (if d.page2.isEmptyB then [] else page2Body d.page2)
  ++ [Ev.next]
  ++ (if d.page3.isEmptyB then [] else page3Body d.page3)
  ++ [Ev.submit]

/-- Modelled from the spec (§8 item 7 and §4.2): the trace the Page
Sequencer claim asserts — exactly one application per question key present
in the document, in page order, a page advance after pages 1 and 2, page 3
including both rating matrices (in the mode the document selects), and one
final submit. -/
def specTrace (d : AnswerDoc) : List Ev :=
  optE (Ev.radio T_semestre) d.page1.semestre
  ++ optE (Ev.checks T_herramientas) d.page1.herramientas
  ++ optE (Ev.checks T_so) d.page1.so_virtualizados
  ++ optE (Ev.checks T_impedimentos) d.page1.impedimentos
  ++ [Ev.next]
  ++ optE (Ev.radio T_tipo_equipo) d.page2.tipo_equipo
  ++ optE (Ev.radio T_cpu) d.page2.cpu
  ++ optE (Ev.radio T_ram) d.page2.ram
  ++ optE (Ev.radio T_tipo_almacenamiento) d.page2.tipo_almacenamiento
  ++ optE (Ev.radio T_capacidad) d.page2.capacidad_almacenamiento
  ++ optE (Ev.radio T_gpu) d.page2.gpu
  ++ [Ev.next]
  ++ optE (Ev.radio T_preferencia) d.page3.preferencia
  ++ [matrixEv T_beneficios d.page3.beneficios_permutar d.page3.beneficios]
  ++ [matrixEv T_preocupaciones d.page3.preocupaciones_permutar d.page3.preocupaciones]
  ++ [Ev.submit]

/-! ## Theorems -/

/-- C9: For every row located by `select_linear_scale_from_dict` with column
count at least 1 and every integer value (including out-of-range ones), the
clicked column index is `max(0, min(value - 1, columnCount - 1))`, which is
exactly the clamp of `value` into `[1, columnCount]` shifted to a 0-based
index; out-of-range values saturate to the nearest end, never fail, and the
resulting index is always a valid column. -/
theorem select_linear_scale_from_dict_clamp (rows_to_values : List (String × ℤ))
    (colOf : String → ℕ) (h : ∀ rv ∈ rows_to_values, 1 ≤ colOf rv.1) :
    select_linear_scale_from_dict rows_to_values colOf
      = rows_to_values.map (fun rv => (rv.1, max 1 (min rv.2 ((colOf rv.1 : ℤ))) - 1)) ∧
    ∀ rv ∈ rows_to_values, 0 ≤ scaleFromDictIdx rv.2 (colOf rv.1) ∧
      scaleFromDictIdx rv.2 (colOf rv.1) < (colOf rv.1 : ℤ) := by
  constructor
  · unfold select_linear_scale_from_dict
    apply List.map_congr_left
    intro rv hrv
    have h1 := h rv hrv
    have h2 : (1 : ℤ) ≤ (colOf rv.1 : ℤ) := by exact_mod_cast h1
    simp only [scaleFromDictIdx, Prod.mk.injEq, true_and]
    omega
  · intro rv hrv
    have h1 := h rv hrv
    have h2 : (1 : ℤ) ≤ (colOf rv.1 : ℤ) := by exact_mod_cast h1
    unfold scaleFromDictIdx
    omega

/-- Witness for C9 at a concrete row with an out-of-range value: a value of
`7` on a 5-column row saturates to 0-based index `4`. -/
theorem select_linear_scale_from_dict_clamp_witness :
    (∀ rv ∈ ([("fila", (7 : ℤ))] : List (String × ℤ)),
        1 ≤ (fun _ : String => (5 : ℕ)) rv.1) ∧
    (select_linear_scale_from_dict [("fila", (7 : ℤ))] (fun _ => 5)
        = ([("fila", (7 : ℤ))] : List (String × ℤ)).map
            (fun rv => (rv.1, max 1 (min rv.2 ((((fun _ : String => (5 : ℕ)) rv.1) : ℤ))) - 1)) ∧
      ∀ rv ∈ ([("fila", (7 : ℤ))] : List (String × ℤ)),
        0 ≤ scaleFromDictIdx rv.2 ((fun _ : String => (5 : ℕ)) rv.1) ∧
        scaleFromDictIdx rv.2 ((fun _ : String => (5 : ℕ)) rv.1)
          < (((fun _ : String => (5 : ℕ)) rv.1) : ℤ)) :=
  ⟨by simp, select_linear_scale_from_dict_clamp [("fila", (7 : ℤ))] (fun _ => 5) (by simp)⟩

/-- C7: On a located rating-matrix block, `select_linear_scale_permutation`
fails with the no-rows error when the block has no `radiogroup` rows, and
with the no-columns error when row 0 exposes zero radio controls; in both
cases the error is produced instead of any click list (the run is aborted by
the uncaught `RuntimeError`). -/
theorem select_linear_scale_permutation_errors (columns : List ℕ) (t : String)
    (rows : List ℕ) :
    (rows.length = 0 → select_linear_scale_permutation columns t rows
        = .error (.NoRows t)) ∧
    (rows.length ≠ 0 → rows.headD 0 = 0 → select_linear_scale_permutation columns t rows
        = .error (.NoColumns t)) ∧
    (∀ e, select_linear_scale_permutation columns t rows = .error e →
      ∀ clicks, select_linear_scale_permutation columns t rows ≠ .ok clicks) := by
  refine ⟨?_, ?_, ?_⟩
  · intro h
    simp [select_linear_scale_permutation, h]
  · intro h hc
    match rows, h with
    | a :: tl, _ =>
      simp only [List.headD_cons] at hc
      simp [select_linear_scale_permutation, hc]
  · intro e he clicks hok
    rw [he] at hok
    exact Except.noConfusion hok

/-- Witness for C7: the empty block raises the no-rows error, and the block
with one zero-radio row raises the no-columns error. -/
theorem select_linear_scale_permutation_errors_witness :
    (([] : List ℕ).length = 0 ∧
      select_linear_scale_permutation [] "m" [] = .error (.NoRows "m")) ∧
    (([0] : List ℕ).length ≠ 0 ∧ ([0] : List ℕ).headD 0 = 0 ∧
      select_linear_scale_permutation [] "m" [0] = .error (.NoColumns "m")) := by
  refine ⟨⟨rfl, (select_linear_scale_permutation_errors [] "m" []).1 rfl⟩,
    ⟨by simp, rfl, (select_linear_scale_permutation_errors [] "m" [0]).2.1 (by simp) rfl⟩⟩

/-- C8: the question-block lookup used by the field fillers (modelled on
`select_radio`) fails with `NotFound` if and only if no listitem region on
the page contains the title substring; the failure produces no click, and
when at least one region matches, the first match is the one used. -/
theorem select_radio_not_found_spec (page : List Region) (t choice : String) :
    (select_radio page t choice = .error (.NotFound t) ↔
      ∀ r ∈ page, ¬ textContains r.text t) ∧
    (∀ r rest, page.filter (fun r => textContains r.text t) = r :: rest →
      select_radio page t choice = .ok (r, choice)) := by
  constructor
  · unfold select_radio _section_by_title
    cases h : (page.filter (fun r => textContains r.text t)).head? with
    | none =>
      simp only [h]
      constructor
      · intro _ r hr hc
        rw [List.head?_eq_none_iff] at h
        have : r ∈ page.filter (fun r => textContains r.text t) :=
          List.mem_filter.mpr ⟨hr, hc⟩
        rw [h] at this
        exact List.not_mem_nil r this
      · intro _
        trivial
    | some r =>
      simp only [h]
      constructor
      · intro hb
        exact absurd hb (by simp)
      · intro hall
        exfalso
        obtain ⟨tl, htl⟩ : ∃ tl, page.filter (fun r => textContains r.text t) = r :: tl := by
          cases hl : page.filter (fun r => textContains r.text t) with
          | nil => rw [hl] at h; exact Option.noConfusion h
          | cons a tl =>
            rw [hl] at h
            simp only [List.head?_cons, Option.some.injEq] at h
            exact ⟨tl, by rw [h]⟩
        have hr : r ∈ page.filter (fun r => textContains r.text t) := by
          rw [htl]; exact List.mem_cons_self r tl
        rw [List.mem_filter] at hr
        exact hall r hr.1 hr.2
  · intro r rest hfil
    unfold select_radio _section_by_title
    rw [hfil]
    rfl

/-- Witness for C8: on a two-region page whose second and third regions both
contain the title, the lookup clicks inside the second region (the first
match); on a page with no matching region it fails with `NotFound`. -/
theorem select_radio_not_found_spec_witness :
    (select_radio [⟨"otra pregunta"⟩] "semestre" "x" = .error (.NotFound "semestre") ↔
      ∀ r ∈ [Region.mk "otra pregunta"], ¬ textContains r.text "semestre") ∧
    select_radio [⟨"intro"⟩, ⟨"¿En qué semestre?"⟩, ⟨"semestre otra vez"⟩] "semestre" "x"
      = .ok (⟨"¿En qué semestre?"⟩, "x") := by
  constructor
  · exact (select_radio_not_found_spec [⟨"otra pregunta"⟩] "semestre" "x").1
  · exact (select_radio_not_found_spec _ "semestre" "x").2 ⟨"¿En qué semestre?"⟩
      [⟨"semestre otra vez"⟩] (by decide)

/-- Once a checkbox is checked, later clicks of the loop never uncheck it. -/
theorem select_checkboxes_mono (choices : List String) :
    ∀ (s : String → Bool) (l : String), s l = true →
      (select_checkboxes choices s).2 l = true := by
  induction choices with
  | nil => intro s l hl; simpa [select_checkboxes] using hl
  | cons c rest ih =>
    intro s l hl
    by_cases h : ariaChecked s c = "true"
    · simpa [select_checkboxes, h] using ih s l hl
    · have hc : s c = false := by
        unfold ariaChecked at h
        cases hsc : s c with
        | false => rfl
        | true => simp [hsc] at h
      have hlc : l ≠ c := by
        intro he
        rw [he, hc] at hl
        exact Bool.noConfusion hl
      simp only [select_checkboxes, if_neg h]
      exact ih _ l (by simp [hlc, hl])

/-- After `select_checkboxes`, every requested label is checked. -/
theorem select_checkboxes_all_checked (choices : List String) :
    ∀ (s : String → Bool) (l : String), l ∈ choices →
      (select_checkboxes choices s).2 l = true := by
  induction choices with
  | nil => intro s l hl; exact absurd hl (List.not_mem_nil l)
  | cons c rest ih =>
    intro s l hl
    by_cases h : ariaChecked s c = "true"
    · have hc : s c = true := by
        unfold ariaChecked at h
        cases hsc : s c with
        | true => rfl
        | false => simp [hsc] at h
      rcases List.mem_cons.mp hl with he | hm
      · simpa [select_checkboxes, h] using select_checkboxes_mono rest s l (he ▸ hc)
      · simpa [select_checkboxes, h] using ih s l hm
    · have hc : s c = false := by
        unfold ariaChecked at h
        cases hsc : s c with
        | false => rfl
        | true => simp [hsc] at h
      simp only [select_checkboxes, if_neg h]
      rcases List.mem_cons.mp hl with he | hm
      · exact select_checkboxes_mono rest _ l (by simp [he, hc])
      · exact ih _ l hm

/-- If every requested label is already checked, the loop performs no click
at all and leaves the state untouched. -/
theorem select_checkboxes_no_click (choices : List String) :
    ∀ s : String → Bool, (∀ l ∈ choices, s l = true) →
      select_checkboxes choices s = ([], s) := by
  induction choices with
  | nil => intro s _; rfl
  | cons c rest ih =>
    intro s hall
    have hc : ariaChecked s c = "true" := by
      simp [ariaChecked, hall c (List.mem_cons_self c rest)]
    simp only [select_checkboxes, if_pos hc]
    exact ih s (fun l hl => hall l (List.mem_cons_of_mem c hl))

/-- C6: `select_checkboxes` is idempotent with respect to clicks — each
checkbox is clicked only when its `aria-checked` state is not already
`"true"`, so re-running it with the same label list performs zero additional
clicks and leaves every previously-checked option checked (no toggle-off). -/
theorem select_checkboxes_idempotent (choices : List String) (s : String → Bool) :
    select_checkboxes choices (select_checkboxes choices s).2
      = ([], (select_checkboxes choices s).2) :=
  select_checkboxes_no_click choices _
    (fun l hl => select_checkboxes_all_checked choices s l hl)

/-! ### Sampling-engine lemmas -/

/-- Every dict key comes from the comprehension's input list. -/
theorem mem_pyDictKeysAux : ∀ (l seen : List String) (x : String),
    x ∈ pyDictKeysAux seen l → x ∈ l := by
  intro l
  induction l with
  | nil => intro seen x hx; simp [pyDictKeysAux] at hx
  | cons k rest ih =>
    intro seen x hx
    by_cases h : k ∈ seen
    · rw [pyDictKeysAux, if_pos h] at hx
      exact List.mem_cons_of_mem k (ih seen x hx)
    · rw [pyDictKeysAux, if_neg h] at hx
      rcases List.mem_cons.mp hx with he | hm
      · exact he ▸ List.mem_cons_self k rest
      · exact List.mem_cons_of_mem k (ih (k :: seen) x hm)

/-- The dict keys are a subset of the options. -/
theorem mem_pyDictKeys {l : List String} {x : String} (hx : x ∈ pyDictKeys l) : x ∈ l :=
  mem_pyDictKeysAux l [] x hx

/-- On a duplicate-free list the comprehension keeps every element. -/
theorem pyDictKeysAux_eq_self : ∀ (l seen : List String), l.Nodup →
    (∀ x ∈ l, x ∉ seen) → pyDictKeysAux seen l = l := by
  intro l
  induction l with
  | nil => intro seen _ _; rfl
  | cons k rest ih =>
    intro seen hnd hdis
    have hk : k ∉ seen := hdis k (List.mem_cons_self k rest)
    rw [pyDictKeysAux, if_neg hk]
    congr 1
    apply ih (k :: seen) (List.Nodup.of_cons hnd)
    intro x hx
    intro hmem
    rcases List.mem_cons.mp hmem with he | hm
    · exact (List.nodup_cons.mp hnd).1 (he ▸ hx)
    · exact hdis x (List.mem_cons_of_mem k hx) hm

/-- `pyDictKeys` is the identity on duplicate-free lists. -/
theorem pyDictKeys_eq_self {l : List String} (h : l.Nodup) : pyDictKeys l = l :=
  pyDictKeysAux_eq_self l [] h (by intro x _ hx; exact List.not_mem_nil x hx)

/-- `pyDictKeys` of a non-empty list starts with its head. -/
theorem pyDictKeys_cons (k : String) (rest : List String) :
    pyDictKeys (k :: rest) = k :: pyDictKeysAux [k] rest := by
  rw [pyDictKeys, pyDictKeysAux, if_neg (List.not_mem_nil k)]

/-- The default of `getLastD` is irrelevant on a non-empty list. -/
theorem getLastD_mem (l : List String) (d : String) (h : l ≠ []) : l.getLastD d ∈ l := by
  rcases l with _ | ⟨a, t⟩
  · exact absurd rfl h
  · rw [List.getLastD_cons]
    exact List.getLastD_mem_cons t a

/-- `_normalize` keeps the keys (and their order) of its input. -/
theorem _normalize_fst (w : List (String × ℚ)) :
    (_normalize w).map Prod.fst = w.map Prod.fst := by
  simp only [_normalize]
  split
  · simp
  · simp

/-- A successful `wcLoop` returns one of the listed keys. -/
theorem wcLoop_mem (r : ℚ) : ∀ (l : List (String × ℚ)) (acc : ℚ) (c : String),
    wcLoop r acc l = some c → c ∈ l.map Prod.fst := by
  intro l
  induction l with
  | nil => intro acc c h; exact Option.noConfusion h
  | cons kp rest ih =>
    intro acc c h
    rw [wcLoop] at h
    by_cases hle : r ≤ acc + kp.2
    · rw [if_pos hle, Option.some.injEq] at h
      exact h ▸ List.mem_cons_self _ _
    · rw [if_neg hle] at h
      exact List.mem_cons_of_mem _ (ih (acc + kp.2) c h)

/-- When the draw strictly exceeds the accumulated mass, the entry `wcLoop`
returns carries strictly positive probability. -/
theorem wcLoop_pos (r : ℚ) : ∀ (l : List (String × ℚ)) (acc : ℚ), acc < r →
    ∀ c, wcLoop r acc l = some c → ∃ p, (c, p) ∈ l ∧ 0 < p := by
  intro l
  induction l with
  | nil => intro acc _ c h; exact Option.noConfusion h
  | cons kp rest ih =>
    intro acc hacc c h
    rw [wcLoop] at h
    by_cases hle : r ≤ acc + kp.2
    · rw [if_pos hle, Option.some.injEq] at h
      refine ⟨kp.2, ?_, by linarith⟩
      rw [← h]
      exact List.mem_cons_self _ _
    · rw [if_neg hle] at h
      push_neg at hle
      obtain ⟨p, hp, hppos⟩ := ih (acc + kp.2) (by linarith) c h
      exact ⟨p, List.mem_cons_of_mem _ hp, hppos⟩

/-- `wcLoop` succeeds whenever the draw is within the total mass. -/
theorem wcLoop_isSome (r : ℚ) : ∀ (l : List (String × ℚ)) (acc : ℚ), l ≠ [] →
    r ≤ acc + (l.map Prod.snd).sum → ∃ c, wcLoop r acc l = some c := by
  intro l
  induction l with
  | nil => intro acc h _; exact absurd rfl h
  | cons kp rest ih =>
    intro acc _ hr
    rw [wcLoop]
    by_cases hle : r ≤ acc + kp.2
    · exact ⟨kp.1, by rw [if_pos hle]⟩
    · rw [if_neg hle]
      push_neg at hle
      rcases rest with _ | ⟨q, tail⟩
      · exfalso
        simp only [List.map_cons, List.map_nil, List.sum_cons, List.sum_nil, add_zero] at hr
        linarith
      · apply ih (acc + kp.2) (List.cons_ne_nil q tail)
        simp only [List.map_cons, List.sum_cons] at hr ⊢
        linarith

/-- `weighted_choice` always returns one of the given options. -/
theorem weighted_choice_mem (r : ℚ) (options : List String) (wm : String → ℚ)
    (h : options ≠ []) : weighted_choice r options wm ∈ options := by
  unfold weighted_choice
  have hkeys : (_normalize ((pyDictKeys options).map (fun o => (o, wm o)))).map Prod.fst
      = pyDictKeys options := by
    rw [_normalize_fst, List.map_map]
    have hco : (Prod.fst ∘ fun o => (o, wm o)) = id := rfl
    rw [hco, List.map_id]
  cases hw : wcLoop r 0 (_normalize ((pyDictKeys options).map (fun o => (o, wm o)))) with
  | some c =>
    simp only [hw]
    exact mem_pyDictKeys (hkeys ▸ wcLoop_mem r _ 0 c hw)
  | none =>
    simp only [hw]
    rw [hkeys]
    rcases options with _ | ⟨o, rest⟩
    · exact absurd rfl h
    · apply mem_pyDictKeys
      apply getLastD_mem
      rw [pyDictKeys_cons]
      exact List.cons_ne_nil o _

/-- The selection loop of `weighted_sample_unique`, on a duplicate-free
pool: the result is duplicate-free, has length `min k |pool|`, and draws
only pool members. -/
theorem weighted_sample_unique_go_spec (g : ℕ → ℚ) (wm : String → ℚ) :
    ∀ (k n : ℕ) (remaining : List String), remaining.Nodup →
      (weighted_sample_unique_go g wm k n remaining).1.Nodup ∧
      (weighted_sample_unique_go g wm k n remaining).1.length = min k remaining.length ∧
      ∀ x ∈ (weighted_sample_unique_go g wm k n remaining).1, x ∈ remaining := by
  intro k
  induction k with
  | zero => intro n remaining _; simp [weighted_sample_unique_go]
  | succ k ih =>
    intro n remaining hnd
    by_cases hemp : remaining.isEmpty
    · have : remaining = [] := List.isEmpty_iff.mp hemp
      subst this
      simp [weighted_sample_unique_go]
    · have hne : remaining ≠ [] := by
        intro h
        rw [h] at hemp
        exact hemp rfl
      rw [weighted_sample_unique_go]
      rw [if_neg (by simpa using hemp)]
      have hpick : weighted_choice (g n) remaining wm ∈ remaining :=
        weighted_choice_mem (g n) remaining wm hne
      set pick := weighted_choice (g n) remaining wm with hpickdef
      have herased : (remaining.erase pick).Nodup := List.Nodup.erase pick hnd
      obtain ⟨ihnd, ihlen, ihmem⟩ := ih (n + 1) (remaining.erase pick) herased
      have hlen_erase : (remaining.erase pick).length = remaining.length - 1 :=
        List.length_erase_of_mem hpick
      refine ⟨?_, ?_, ?_⟩
      · rw [List.nodup_cons]
        refine ⟨fun hmem => ?_, ihnd⟩
        have := ihmem pick hmem
        rw [List.Nodup.mem_erase_iff hnd] at this
        exact this.1 rfl
      · simp only [List.length_cons, ihlen, hlen_erase]
        have : remaining.length ≠ 0 := fun h => hne (List.length_eq_zero.mp h)
        omega
      · intro x hx
        rcases List.mem_cons.mp hx with he | hm
        · exact he ▸ hpick
        · exact List.mem_of_mem_erase (ihmem x hm)

/-- C2, counterexample to the claim as stated: on the duplicated option
sequence `["A", "A"]` with `k = 2`, `weighted_sample_unique` returns
`["A", "A"]` — the promised count `min(max(k,0), |options|) = 2` of
elements, but they are not pairwise distinct.  (`remaining.remove(pick)`
removes only the first copy, so the duplicate is drawn again.) -/
theorem weighted_sample_unique_duplicates_counterexample :
    (weighted_sample_unique (fun _ => 0) 0 ["A", "A"] (fun _ => 0) 2).1 = ["A", "A"] ∧
    ¬ (weighted_sample_unique (fun _ => 0) 0 ["A", "A"] (fun _ => 0) 2).1.Nodup := by
  have h : (weighted_sample_unique (fun _ => 0) 0 ["A", "A"] (fun _ => 0) 2).1
      = ["A", "A"] := by
    simp [weighted_sample_unique, weighted_sample_unique_go, weighted_choice, _normalize,
      wcLoop, pyDictKeys, pyDictKeysAux, List.erase]
  refine ⟨h, ?_⟩
  rw [h]
  simp

/-- C2 (amended: the option sequence must be duplicate-free, as every
catalog the program samples from is): `weighted_sample_unique` returns
exactly `min(max(k, 0), |options|)` pairwise-distinct elements, each drawn
from `options`, for every weight map, stream and integer `k`. -/
theorem weighted_sample_unique_spec (g : ℕ → ℚ) (n : ℕ) (options : List String)
    (wm : String → ℚ) (k : ℤ) (h : options.Nodup) :
    (weighted_sample_unique g n options wm k).1.Nodup ∧
    ((weighted_sample_unique g n options wm k).1.length : ℤ)
        = min (max k 0) (options.length : ℤ) ∧
    ∀ x ∈ (weighted_sample_unique g n options wm k).1, x ∈ options := by
  unfold weighted_sample_unique
  obtain ⟨hnd, hlen, hmem⟩ := weighted_sample_unique_go_spec g wm
    (max 0 (min k (options.length : ℤ))).toNat n options h
  refine ⟨hnd, ?_, hmem⟩
  rw [hlen]
  have h0 : (0 : ℤ) ≤ max 0 (min k (options.length : ℤ)) := le_max_left 0 _
  have hle : max 0 (min k (options.length : ℤ)) ≤ (options.length : ℤ) := by
    have : (0 : ℤ) ≤ (options.length : ℤ) := Int.ofNat_nonneg _
    omega
  omega

/-- Witness for C2 at a concrete duplicate-free input: three options,
`k = 2`. -/
theorem weighted_sample_unique_spec_witness :
    (["A", "B", "C"] : List String).Nodup ∧
    ((weighted_sample_unique (fun _ => 0) 0 ["A", "B", "C"] (fun _ => 0) 2).1.Nodup ∧
      ((weighted_sample_unique (fun _ => 0) 0 ["A", "B", "C"] (fun _ => 0) 2).1.length : ℤ)
          = min (max 2 0) ((["A", "B", "C"] : List String).length : ℤ) ∧
      ∀ x ∈ (weighted_sample_unique (fun _ => 0) 0 ["A", "B", "C"] (fun _ => 0) 2).1,
        x ∈ (["A", "B", "C"] : List String)) :=
  ⟨by decide, weighted_sample_unique_spec (fun _ => 0) 0 ["A", "B", "C"] (fun _ => 0) 2
    (by decide)⟩

/-- The weight table of spec test 6: `{"A": 1, "B": 0, "C": 0}` (absent
keys weigh 0). -/
def wABC : String → ℚ := fun o => if o = "A" then 1 else 0

/-- Dividing a list elementwise distributes over its sum. -/
theorem sum_div_list (l : List ℚ) (s : ℚ) : (l.map (fun x => x / s)).sum = l.sum / s := by
  induction l with
  | nil => simp
  | cons a t ih => simp [ih, add_div]

/-- `_normalize` with positive clamped total `s` divides each clamped
weight by `s`. -/
theorem _normalize_pos (w : List (String × ℚ)) (s : ℚ)
    (hsum : (w.map (fun kv => max 0 kv.2)).sum = s) (hs : 0 < s) :
    _normalize w = w.map (fun kv => (kv.1, max 0 kv.2 / s)) := by
  have hmm : (w.map (fun kv => (kv.1, max 0 kv.2))).map Prod.snd
      = w.map (fun kv => max 0 kv.2) := by
    rw [List.map_map]; rfl
  simp only [_normalize, hmm, hsum]
  rw [if_neg (not_le.mpr hs), List.map_map]
  rfl

/-- C4, counterexample to the claim as stated: with options `["B", "A"]`,
weights `{A: 1, B: 0}` (positive total weight) and the legal draw
`r = 0`, `weighted_choice` returns `"B"`, an option of weight `0`: the
loop's `r <= acc` test accepts the first option whenever `r = 0`. -/
theorem weighted_choice_zero_draw_counterexample :
    weighted_choice 0 ["B", "A"] wABC = "B" ∧ wABC "B" = 0 ∧
    0 < ((pyDictKeys ["B", "A"]).map (fun o => max 0 (wABC o))).sum := by
  refine ⟨?_, ?_, ?_⟩
  · simp [weighted_choice, _normalize, wcLoop, pyDictKeys, pyDictKeysAux, wABC]
  · simp [wABC]
  · simp [pyDictKeys, pyDictKeysAux, wABC]

/-- C4 (amended: for strictly positive draws — `random.random()` can return
exactly 0, in which case the first option is returned regardless of its
weight): whenever the draw lies in `(0, 1)` and the clamped total weight of
the options is positive, `weighted_choice` returns an option of strictly
positive weight; and on `options = ["A", "B", "C"]` with weights
`{A: 1, B: 0, C: 0}` every draw in `[0, 1)` yields `"A"`. -/
theorem weighted_choice_positive_weight :
    (∀ (r : ℚ) (options : List String) (wm : String → ℚ), 0 < r → r < 1 →
      0 < ((pyDictKeys options).map (fun o => max 0 (wm o))).sum →
      0 < wm (weighted_choice r options wm)) ∧
    (∀ r : ℚ, 0 ≤ r → r < 1 → weighted_choice r ["A", "B", "C"] wABC = "A") := by
  constructor
  · intro r options wm hr0 hr1 hs
    set keys := pyDictKeys options with hkeysdef
    set S := (keys.map (fun o => max 0 (wm o))).sum with hSdef
    have hw_clamped : ((keys.map (fun o => (o, wm o))).map (fun kv => max 0 kv.2))
        = keys.map (fun o => max 0 (wm o)) := by
      rw [List.map_map]; rfl
    have hitems : _normalize (keys.map (fun o => (o, wm o)))
        = keys.map (fun o => (o, max 0 (wm o) / S)) := by
      rw [_normalize_pos (keys.map (fun o => (o, wm o))) S (by rw [hw_clamped]) hs,
        List.map_map]
      rfl
    have hkeys_ne : keys ≠ [] := by
      intro h
      rw [h] at hSdef
      rw [hSdef] at hs
      simp at hs
    have hsum1 : ((keys.map (fun o => (o, max 0 (wm o) / S))).map Prod.snd).sum = 1 := by
      have h1 : (keys.map (fun o => (o, max 0 (wm o) / S))).map Prod.snd
          = (keys.map (fun o => max 0 (wm o))).map (fun x => x / S) := by
        rw [List.map_map, List.map_map]; rfl
      rw [h1, sum_div_list, ← hSdef, div_self (ne_of_gt hs)]
    obtain ⟨c, hc⟩ := wcLoop_isSome r (keys.map (fun o => (o, max 0 (wm o) / S))) 0
      (by simpa using hkeys_ne) (by rw [hsum1]; linarith)
    have hres : weighted_choice r options wm = c := by
      unfold weighted_choice
      rw [← hkeysdef, hitems]
      simp only [hc]
    obtain ⟨p, hpmem, hppos⟩ := wcLoop_pos r _ 0 hr0 c hc
    rw [List.mem_map] at hpmem
    obtain ⟨o, _, heq⟩ := hpmem
    rw [Prod.mk.injEq] at heq
    obtain ⟨hoc, hop⟩ := heq
    rw [hres]
    by_contra hneg
    push_neg at hneg
    have hmax : max 0 (wm c) = 0 := max_eq_left hneg
    rw [hoc] at hop
    rw [hmax] at hop
    rw [← hop] at hppos
    simp at hppos
  · intro r h0 h1
    have h1' : r ≤ 1 := le_of_lt h1
    simp [weighted_choice, _normalize, wcLoop, pyDictKeys, pyDictKeysAux, wABC, h1']

/-- Witness for C4: at draw `r = 1/2` on `["B", "A"]` the returned option
has positive weight, and on the spec's concrete instance `r = 1/2` yields
`"A"`. -/
theorem weighted_choice_positive_weight_witness :
    ((0 : ℚ) < 1 / 2 ∧ (1 / 2 : ℚ) < 1 ∧
      0 < ((pyDictKeys ["B", "A"]).map (fun o => max 0 (wABC o))).sum ∧
      0 < wABC (weighted_choice (1 / 2) ["B", "A"] wABC)) ∧
    ((0 : ℚ) ≤ 1 / 2 ∧ weighted_choice (1 / 2) ["A", "B", "C"] wABC = "A") := by
  have hsum : (0 : ℚ) < ((pyDictKeys ["B", "A"]).map (fun o => max 0 (wABC o))).sum := by
    simp [pyDictKeys, pyDictKeysAux, wABC]
  refine ⟨⟨by norm_num, by norm_num, hsum, ?_⟩, ⟨by norm_num, ?_⟩⟩
  · exact weighted_choice_positive_weight.1 (1 / 2) ["B", "A"] wABC (by norm_num)
      (by norm_num) hsum
  · exact weighted_choice_positive_weight.2 (1 / 2) (by norm_num) (by norm_num)

/-- `_normalize` on an all-zero weight list falls back to the uniform
distribution `1/n`. -/
theorem _normalize_all_zero (w : List (String × ℚ)) (h : ∀ kv ∈ w, kv.2 = 0) :
    _normalize w = w.map (fun kv => (kv.1, 1 / (w.length : ℚ))) := by
  have hclamp : w.map (fun kv => (kv.1, max 0 kv.2)) = w := by
    have : w.map (fun kv => (kv.1, max 0 kv.2)) = w.map id := by
      apply List.map_congr_left
      intro kv hkv
      obtain ⟨a, b⟩ := kv
      have hb := h (a, b) hkv
      simp only at hb
      rw [hb]
      simp
    rw [this, List.map_id]
  have hsum : (w.map Prod.snd).sum = 0 := by
    apply List.sum_eq_zero
    intro x hx
    rw [List.mem_map] at hx
    obtain ⟨kv, hkv, hx⟩ := hx
    rw [← hx]
    exact h kv hkv
  simp only [_normalize, hclamp, hsum]
  rw [if_pos (le_of_eq rfl)]

/-- On a constant-probability list, `wcLoop` lands on the entry whose
cumulative interval contains the draw. -/
theorem wcLoop_const (p r : ℚ) :
    ∀ (l : List String) (acc : ℚ), l ≠ [] → r ≤ acc + l.length * p →
      ∃ i, ∃ h : i < l.length,
        wcLoop r acc (l.map (fun c => (c, p))) = some (l.get ⟨i, h⟩) ∧
        r ≤ acc + ((i : ℚ) + 1) * p ∧ (i = 0 ∨ acc + (i : ℚ) * p < r) := by
  intro l
  induction l with
  | nil => intro acc h _; exact absurd rfl h
  | cons a t ih =>
    intro acc _ hr
    rw [List.map_cons, wcLoop]
    by_cases hle : r ≤ acc + p
    · refine ⟨0, Nat.succ_pos _, ?_, ?_, Or.inl rfl⟩
      · rw [if_pos hle]
        rfl
      · push_cast
        linarith
    · rw [if_neg hle]
      push_neg at hle
      rcases t with _ | ⟨b, t'⟩
      · exfalso
        simp only [List.length_cons, List.length_nil, Nat.cast_one, Nat.cast_zero,
          zero_add, one_mul] at hr
        linarith
      · have hr' : r ≤ (acc + p) + ((b :: t').length : ℚ) * p := by
          simp only [List.length_cons, Nat.cast_add, Nat.cast_one] at hr ⊢
          linarith
        obtain ⟨i, hi, heq, hub, hlbd⟩ := ih (acc + p) (List.cons_ne_nil b t') hr'
        refine ⟨i + 1, Nat.succ_lt_succ hi, ?_, ?_, ?_⟩
        · exact heq
        · push_cast at hub ⊢
          linarith
        · right
          rcases hlbd with h0 | hlt
          · rw [h0]
            push_cast
            linarith
          · push_cast at hlt ⊢
            linarith

/-- C5: with a positive draw domain `[0, 1)` and every option's weight `0`
(total weight `0`), `weighted_choice` behaves as a uniform choice:
normalization assigns every option the probability `1/n`, and the returned
option is the one of the (unique) index whose uniform cumulative interval
contains the draw — `r ≤ (i+1)/n`, and `i = 0` or `i/n < r`. -/
theorem weighted_choice_uniform_fallback (r : ℚ) (options : List String)
    (wm : String → ℚ) (hne : options ≠ []) (hnd : options.Nodup)
    (hw : ∀ o ∈ options, wm o = 0) (_h0 : 0 ≤ r) (h1 : r < 1) :
    _normalize ((pyDictKeys options).map (fun o => (o, wm o)))
        = options.map (fun o => (o, 1 / (options.length : ℚ))) ∧
    ∃ i, ∃ h : i < options.length,
      weighted_choice r options wm = options.get ⟨i, h⟩ ∧
      r ≤ ((i : ℚ) + 1) / (options.length : ℚ) ∧
      (i = 0 ∨ (i : ℚ) / (options.length : ℚ) < r) := by
  have hkeys : pyDictKeys options = options := pyDictKeys_eq_self hnd
  have hnorm : _normalize ((pyDictKeys options).map (fun o => (o, wm o)))
      = options.map (fun o => (o, 1 / (options.length : ℚ))) := by
    rw [hkeys, _normalize_all_zero]
    · rw [List.map_map, List.length_map]
      rfl
    · intro kv hkv
      rw [List.mem_map] at hkv
      obtain ⟨o, ho, hkv⟩ := hkv
      rw [← hkv]
      exact hw o ho
  have hn_pos : 0 < (options.length : ℚ) := by
    have : 0 < options.length := List.length_pos.mpr hne
    exact_mod_cast this
  have hp : (0 : ℚ) < 1 / (options.length : ℚ) := by positivity
  have hr_mass : r ≤ 0 + (options.length : ℚ) * (1 / (options.length : ℚ)) := by
    rw [mul_one_div, div_self (ne_of_gt hn_pos), zero_add]
    linarith
  obtain ⟨i, hi, heq, hub, hlb⟩ := wcLoop_const (1 / (options.length : ℚ)) r options 0
    hne hr_mass
  refine ⟨hnorm, i, hi, ?_, ?_, ?_⟩
  · unfold weighted_choice
    rw [hnorm]
    simp only [heq]
  · rw [zero_add, mul_one_div] at hub
    exact hub
  · rcases hlb with hz | hlt
    · exact Or.inl hz
    · right
      rw [zero_add, mul_one_div] at hlt
      exact hlt

/-- Witness for C5: two options, all weights zero, draw `3/4` — the second
option's interval `(1/2, 1]` contains the draw. -/
theorem weighted_choice_uniform_fallback_witness :
    ((["x", "y"] : List String) ≠ [] ∧ (["x", "y"] : List String).Nodup ∧
      (∀ o ∈ (["x", "y"] : List String), (fun _ : String => (0 : ℚ)) o = 0) ∧
      (0 : ℚ) ≤ 3 / 4 ∧ (3 / 4 : ℚ) < 1) ∧
    (_normalize ((pyDictKeys ["x", "y"]).map (fun o => (o, (fun _ : String => (0 : ℚ)) o)))
        = (["x", "y"] : List String).map
            (fun o => (o, 1 / ((["x", "y"] : List String).length : ℚ))) ∧
      ∃ i, ∃ h : i < (["x", "y"] : List String).length,
        weighted_choice (3 / 4) ["x", "y"] (fun _ => 0)
            = (["x", "y"] : List String).get ⟨i, h⟩ ∧
        (3 / 4 : ℚ) ≤ ((i : ℚ) + 1) / ((["x", "y"] : List String).length : ℚ) ∧
        (i = 0 ∨ (i : ℚ) / ((["x", "y"] : List String).length : ℚ) < 3 / 4)) := by
  refine ⟨⟨by simp, by decide, by simp, by norm_num, by norm_num⟩, ?_⟩
  exact weighted_choice_uniform_fallback (3 / 4) ["x", "y"] (fun _ => 0) (by simp)
    (by decide) (by simp) (by norm_num) (by norm_num)

/-! ### Matrix-permutation lemmas -/

/-- Among `0, 1, …, q*C + s - 1` at least `q` numbers are congruent to `j`
modulo `C` (for `j < C`). -/
theorem countP_mod_range (C j : ℕ) (hj : j < C) :
    ∀ q s : ℕ, q ≤ (List.range (q * C + s)).countP (fun i => i % C == j) := by
  intro q
  induction q with
  | zero => intro s; exact Nat.zero_le _
  | succ q ih =>
    intro s
    have hsplit : (q + 1) * C + s = C + (q * C + s) := by ring
    rw [hsplit, List.range_add, List.countP_append, List.countP_map]
    have hshift : (List.range (q * C + s)).countP ((fun i => i % C == j) ∘ (C + ·))
        = (List.range (q * C + s)).countP (fun i => i % C == j) := by
      apply List.countP_congr
      intro x _
      simp [Nat.add_mod_left]
    have hone : 0 < (List.range C).countP (fun i => i % C == j) := by
      rw [List.countP_pos_iff]
      exact ⟨j, List.mem_range.mpr hj, by simp [Nat.mod_eq_of_lt hj]⟩
    have hq := ih s
    rw [hshift]
    omega

/-- Every column `c < C` is clicked at least `R / C` times by the
permutation filler's click pattern. -/
theorem matrix_clicks_coverage (perm : List ℕ) (R C : ℕ)
    (hperm : perm.Perm (List.range C)) :
    ∀ c < C, R / C ≤ ((List.range R).map (fun i => perm.getD (i % C) 0)).count c := by
  intro c hc
  have hlen : perm.length = C := by rw [hperm.length_eq, List.length_range]
  have hcm : c ∈ perm := (hperm.mem_iff).mpr (List.mem_range.mpr hc)
  have hjlt : List.indexOf c perm < perm.length := List.indexOf_lt_length.mpr hcm
  have hgetj : perm.getD (List.indexOf c perm) 0 = c := by
    rw [List.getD_eq_getElem?_getD, List.getElem?_eq_getElem hjlt, Option.getD_some]
    exact List.getElem_indexOf hjlt
  rw [List.count_eq_countP, List.countP_map]
  have hmono : (List.range R).countP (fun i => i % C == List.indexOf c perm)
      ≤ (List.range R).countP ((fun x => x == c) ∘ (fun i => perm.getD (i % C) 0)) := by
    apply List.countP_mono_left
    intro x _ hx
    simp only [beq_iff_eq] at hx
    simp only [Function.comp_apply, beq_iff_eq]
    rw [hx, hgetj]
  have hbound := countP_mod_range C (List.indexOf c perm) (hlen ▸ hjlt) (R / C) (R % C)
  have hRsplit : R / C * C + R % C = R := by
    rw [Nat.mul_comm]
    exact Nat.div_add_mod R C
  rw [hRsplit] at hbound
  exact le_trans hbound hmono

/-- Each complete cycle of `C` consecutive rows repeats the permutation
verbatim. -/
theorem matrix_clicks_cycle (perm : List ℕ) (R C q : ℕ) (hlen : perm.length = C)
    (h : (q + 1) * C ≤ R) :
    (((List.range R).map (fun i => perm.getD (i % C) 0)).drop (q * C)).take C = perm := by
  have h' : q * C + C ≤ R := by
    rw [Nat.add_mul, Nat.one_mul] at h
    exact h
  apply List.ext_getElem
  · simp only [List.length_take, List.length_drop, List.length_map, List.length_range, hlen]
    omega
  · intro i h1 h2
    simp only [List.getElem_take, List.getElem_drop, List.getElem_map, List.getElem_range]
    have hiC : i < C := hlen ▸ h2
    have hmod : (q * C + i) % C = i := by
      rw [Nat.add_comm, Nat.mul_comm, Nat.add_mul_mod_self_left]
      exact Nat.mod_eq_of_lt hiC
    rw [hmod, List.getD_eq_getElem?_getD, List.getElem?_eq_getElem h2, Option.getD_some]

/-- C1: on a located matrix block with `R > 0` rows and `C > 0` columns
(`C` read from row 0), given the generated permutation of `[0, C)`,
`select_linear_scale_permutation` clicks exactly one radio per row — row
`i` at column `permutation[i % C]` — so every column in `[0, C)` is
selected at least `R / C` times, and every complete cycle of `C`
consecutive rows uses every column exactly once. -/
theorem select_linear_scale_permutation_spec (columns : List ℕ) (t : String)
    (rows : List ℕ) (hR : 0 < rows.length) (hC : 0 < rows.headD 0)
    (hperm : columns.Perm (List.range (rows.headD 0))) :
    select_linear_scale_permutation columns t rows
      = .ok ((List.range rows.length).map
          (fun i => (i, columns.getD (i % rows.headD 0) 0))) ∧
    ((List.range rows.length).map
        (fun i => (i, columns.getD (i % rows.headD 0) 0))).length = rows.length ∧
    (∀ i, i < rows.length →
      ((List.range rows.length).map
          (fun i => (i, columns.getD (i % rows.headD 0) 0))).getD i (0, 0)
        = (i, columns.getD (i % rows.headD 0) 0)) ∧
    (∀ c < rows.headD 0,
      rows.length / rows.headD 0 ≤
        ((List.range rows.length).map
          (fun i => columns.getD (i % rows.headD 0) 0)).count c) ∧
    (∀ q, (q + 1) * rows.headD 0 ≤ rows.length →
      List.Perm ((((List.range rows.length).map
          (fun i => columns.getD (i % rows.headD 0) 0)).drop
            (q * rows.headD 0)).take (rows.headD 0)) (List.range (rows.headD 0))) := by
  refine ⟨?_, by simp, ?_, ?_, ?_⟩
  · simp only [select_linear_scale_permutation]
    rw [if_neg (by omega : ¬ rows.length = 0), if_neg (by omega : ¬ rows.headD 0 = 0)]
  · intro i hi
    rw [List.getD_eq_getElem?_getD,
      List.getElem?_eq_getElem (by simpa using hi), Option.getD_some]
    simp
  · exact matrix_clicks_coverage columns rows.length (rows.headD 0) hperm
  · intro q hq
    have hlen : columns.length = rows.headD 0 := by
      rw [hperm.length_eq, List.length_range]
    rw [matrix_clicks_cycle columns rows.length (rows.headD 0) q hlen hq]
    exact hperm

/-- Witness for C1: a 3-row, 2-column matrix with the shuffled permutation
`[1, 0]`: rows get columns 1, 0, 1; each column is hit at least
`3 / 2 = 1` time; the first complete cycle `[1, 0]` covers both columns. -/
theorem select_linear_scale_permutation_spec_witness :
    (0 < ([2, 2, 2] : List ℕ).length ∧ 0 < ([2, 2, 2] : List ℕ).headD 0 ∧
      List.Perm [1, 0] (List.range (([2, 2, 2] : List ℕ).headD 0))) ∧
    select_linear_scale_permutation [1, 0] "matriz" [2, 2, 2]
      = .ok ((List.range ([2, 2, 2] : List ℕ).length).map
          (fun i => (i, ([1, 0] : List ℕ).getD (i % ([2, 2, 2] : List ℕ).headD 0) 0))) := by
  refine ⟨⟨by decide, by decide, by decide⟩, ?_⟩
  exact (select_linear_scale_permutation_spec [1, 0] "matriz" [2, 2, 2]
    (by decide) (by decide) (by decide)).1

/-! ### Page-sequencer theorems -/

/-- The all-empty answer document (`{}` for every page). -/
def emptyDoc : AnswerDoc :=
  ⟨⟨none, none, none, none⟩, ⟨none, none, none, none, none, none⟩,
    ⟨none, none, none, none, none⟩⟩

/-- C3, counterexample to the claim as stated: on the document whose
`page3` mapping is empty, `run_bot` performs no matrix interaction at all —
the trace is only the two page advances and the submit — while the claim
promises a trace that includes both rating matrices for every document. -/
theorem run_bot_empty_page3_counterexample :
    run_bot emptyDoc = [Ev.next, Ev.next, Ev.submit] ∧
    specTrace emptyDoc ≠ run_bot emptyDoc ∧
    (run_bot emptyDoc).countP
      (fun e => match e with
        | Ev.scalePerm _ => true
        | Ev.scaleDict _ _ => true
        | _ => false) = 0 := by
  refine ⟨?_, ?_, ?_⟩
  · rfl
  · intro h
    have : Ev.scalePerm T_beneficios ∈ specTrace emptyDoc := by
      simp [specTrace, emptyDoc, optE, matrixEv]
    rw [h] at this
    simp [run_bot, emptyDoc, optE, Page1.isEmptyB, Page2.isEmptyB, Page3.isEmptyB] at this
  · rfl

/-- C3 (amended: restricted to documents whose `page3` mapping is
non-empty; when `page3` is empty the code skips both matrices and only
advances and submits): `run_bot` performs exactly one single-select or
multi-select application per question key present in the document, in page
order, advances after pages 1 and 2, fills page 3 including both rating
matrices (in the mode the document's flags select), and ends with exactly
one submit — with no interaction for any absent key. -/
theorem run_bot_trace_spec (d : AnswerDoc) (h3 : d.page3.isEmptyB = false) :
    run_bot d = specTrace d := by
  obtain ⟨⟨s1, h1, v1, i1⟩, ⟨t2, c2, r2, a2, ca2, g2⟩, p3⟩ := d
  unfold run_bot specTrace page1Body page2Body page3Body
  simp only []
  by_cases he1 : (Page1.mk s1 h1 v1 i1).isEmptyB
  · simp only [Page1.isEmptyB] at he1
    have hs1 : s1 = none := by
      rcases s1 with _ | x
      · rfl
      · simp at he1
    have hh1 : h1 = none := by
      rcases h1 with _ | x
      · rfl
      · simp at he1
    have hv1 : v1 = none := by
      rcases v1 with _ | x
      · rfl
      · simp at he1
    have hi1 : i1 = none := by
      rcases i1 with _ | x
      · rfl
      · simp at he1
    subst hs1 hh1 hv1 hi1
    by_cases he2 : (Page2.mk t2 c2 r2 a2 ca2 g2).isEmptyB
    · simp only [Page2.isEmptyB] at he2
      have ht2 : t2 = none := by rcases t2 with _ | x; rfl; simp at he2
      have hc2 : c2 = none := by rcases c2 with _ | x; rfl; simp at he2
      have hr2 : r2 = none := by rcases r2 with _ | x; rfl; simp at he2
      have ha2 : a2 = none := by rcases a2 with _ | x; rfl; simp at he2
      have hca2 : ca2 = none := by rcases ca2 with _ | x; rfl; simp at he2
      have hg2 : g2 = none := by rcases g2 with _ | x; rfl; simp at he2
      subst ht2 hc2 hr2 ha2 hca2 hg2
      simp [optE, h3]
    · simp [optE, he2, h3]
  · by_cases he2 : (Page2.mk t2 c2 r2 a2 ca2 g2).isEmptyB
    · simp only [Page2.isEmptyB] at he2
      have ht2 : t2 = none := by rcases t2 with _ | x; rfl; simp at he2
      have hc2 : c2 = none := by rcases c2 with _ | x; rfl; simp at he2
      have hr2 : r2 = none := by rcases r2 with _ | x; rfl; simp at he2
      have ha2 : a2 = none := by rcases a2 with _ | x; rfl; simp at he2
      have hca2 : ca2 = none := by rcases ca2 with _ | x; rfl; simp at he2
      have hg2 : g2 = none := by rcases g2 with _ | x; rfl; simp at he2
      subst ht2 hc2 hr2 ha2 hca2 hg2
      simp [optE, he1, h3]
    · simp [optE, he1, he2, h3]

/-- Witness for C3: a full three-page document; its trace is the per-key
applications in page order, the two advances, the two permutation-mode
matrices and the final submit. -/
theorem run_bot_trace_spec_witness :
    ((⟨⟨some "6 - 9", some ["Matlab", "Wireshark"], some ["Debian"], some ["Drivers"]⟩,
        ⟨some "Laptop (Portátil)", some "Intel", some "16 GB",
          some "Disco de Estado Sólido (SSD)", some "512 GB", some "Integrados"⟩,
        ⟨some "Computadora personal", some true, none, some true, none⟩⟩ :
          AnswerDoc).page3.isEmptyB = false) ∧
    run_bot
        ⟨⟨some "6 - 9", some ["Matlab", "Wireshark"], some ["Debian"], some ["Drivers"]⟩,
          ⟨some "Laptop (Portátil)", some "Intel", some "16 GB",
            some "Disco de Estado Sólido (SSD)", some "512 GB", some "Integrados"⟩,
          ⟨some "Computadora personal", some true, none, some true, none⟩⟩
      = specTrace
        ⟨⟨some "6 - 9", some ["Matlab", "Wireshark"], some ["Debian"], some ["Drivers"]⟩,
          ⟨some "Laptop (Portátil)", some "Intel", some "16 GB",
            some "Disco de Estado Sólido (SSD)", some "512 GB", some "Integrados"⟩,
          ⟨some "Computadora personal", some true, none, some true, none⟩⟩ :=
  ⟨rfl, run_bot_trace_spec _ rfl⟩

/-! ### Answer-generator lemmas (claim C10) -/

/-- `round` of a value in `[a, b]` (integer endpoints) stays in `[a, b]`. -/
theorem pyRound_bounds (a b : ℤ) (t : ℚ) (ha : (a : ℚ) ≤ t) (hb : t ≤ (b : ℚ)) :
    a ≤ pyRound t ∧ pyRound t ≤ b := by
  have hfa : a ≤ ⌊t⌋ := Int.le_floor.mpr ha
  have hfb : ⌊t⌋ ≤ b := by
    have h := Int.floor_mono hb
    rwa [Int.floor_intCast] at h
  have hcases : pyRound t = ⌊t⌋ ∨ (pyRound t = ⌊t⌋ + 1 ∧ 1 / 2 ≤ t - ⌊t⌋) := by
    simp only [pyRound]
    split_ifs with h1 h2 h3
    · exact Or.inl rfl
    · exact Or.inr ⟨rfl, le_of_lt h2⟩
    · exact Or.inl rfl
    · push_neg at h1
      exact Or.inr ⟨rfl, h1⟩
  rcases hcases with h | ⟨h, hr⟩
  · rw [h]
    exact ⟨hfa, hfb⟩
  · rw [h]
    constructor
    · omega
    · have hlow : (⌊t⌋ : ℚ) + 1 / 2 ≤ (b : ℚ) := by linarith
      have hlt : (⌊t⌋ : ℚ) < (b : ℚ) := by linarith
      have : ⌊t⌋ < b := by exact_mod_cast hlt
      omega

/-- `random.triangular(low, high, low)` stays in `[low, high]` for a draw
in `[0, 1)`, whatever sound square-root oracle is used. -/
theorem pyTriangular_mode_low_bounds (sqrtA : ℚ → ℚ)
    (hs : ∀ x, 0 ≤ x → x ≤ 1 → 0 ≤ sqrtA x ∧ sqrtA x ≤ 1)
    (low high : ℚ) (hlh : low ≤ high) (u : ℚ) (hu0 : 0 ≤ u) (hu1 : u < 1) :
    low ≤ pyTriangular sqrtA low high low u ∧ pyTriangular sqrtA low high low u ≤ high := by
  simp only [pyTriangular]
  by_cases heq : high = low
  · rw [if_pos heq]
    exact ⟨le_refl low, hlh⟩
  · rw [if_neg heq]
    have hd : 0 < high - low := by
      rcases lt_or_eq_of_le hlh with hlt | hE
      · linarith
      · exact absurd hE.symm heq
    simp only [sub_self, zero_div]
    by_cases hu : (0 : ℚ) < u
    · rw [if_pos hu, sub_zero, mul_one]
      have h1u : (0 : ℚ) ≤ 1 - u := by linarith
      have h1u1 : 1 - u ≤ 1 := by linarith
      obtain ⟨hq0, hq1⟩ := hs (1 - u) h1u h1u1
      constructor
      · nlinarith
      · nlinarith
    · rw [if_neg hu]
      have hu0' : u = 0 := le_antisymm (not_lt.mp hu) hu0
      rw [hu0', zero_mul]
      obtain ⟨hq0, hq1⟩ := hs 0 le_rfl (by norm_num)
      constructor
      · nlinarith
      · nlinarith

/-- `random_k_for_checkbox(min_k, max_k)` always lands in `[min_k, max_k]`. -/
theorem random_k_for_checkbox_bounds (sqrtA : ℚ → ℚ) (g : ℕ → ℚ) (n min_k max_k : ℕ)
    (hk : min_k ≤ max_k) (hg0 : 0 ≤ g n) (hg1 : g n < 1)
    (hs : ∀ x, 0 ≤ x → x ≤ 1 → 0 ≤ sqrtA x ∧ sqrtA x ≤ 1) :
    (min_k : ℤ) ≤ (random_k_for_checkbox sqrtA g n min_k max_k).1 ∧
    (random_k_for_checkbox sqrtA g n min_k max_k).1 ≤ (max_k : ℤ) := by
  have hlh : (min_k : ℚ) ≤ (max_k : ℚ) := by exact_mod_cast hk
  obtain ⟨hlo, hhi⟩ := pyTriangular_mode_low_bounds sqrtA hs min_k max_k hlh (g n) hg0 hg1
  exact pyRound_bounds (min_k : ℤ) (max_k : ℤ) _ (by push_cast; exact hlo)
    (by push_cast; exact hhi)

/-- `weighted_sample_unique` on a duplicate-free pool: duplicate-free
result of length `max 0 (min k |pool|)`, drawn from the pool. -/
theorem weighted_sample_unique_len_mem (g : ℕ → ℚ) (n : ℕ) (options : List String)
    (wm : String → ℚ) (k : ℤ) (h : options.Nodup) :
    (weighted_sample_unique g n options wm k).1.Nodup ∧
    ((weighted_sample_unique g n options wm k).1.length : ℤ)
        = max 0 (min k (options.length : ℤ)) ∧
    ∀ x ∈ (weighted_sample_unique g n options wm k).1, x ∈ options := by
  unfold weighted_sample_unique
  obtain ⟨hnd, hlen, hmem⟩ := weighted_sample_unique_go_spec g wm
    (max 0 (min k (options.length : ℤ))).toNat n options h
  refine ⟨hnd, ?_, hmem⟩
  rw [hlen]
  have h0 : (0 : ℤ) ≤ max 0 (min k (options.length : ℤ)) := le_max_left 0 _
  have hle : max 0 (min k (options.length : ℤ)) ≤ (options.length : ℤ) := by
    have : (0 : ℤ) ≤ (options.length : ℤ) := Int.ofNat_nonneg _
    omega
  omega

/-- A weighted sample with `k` clamped between integer bounds `lo ≤ k ≤ hi`
and `hi ≤ |pool|` has a duplicate-free result of length in `[lo, hi]` drawn
from the pool. -/
theorem sample_between (g : ℕ → ℚ) (n : ℕ) (pool : List String) (wm : String → ℚ)
    (k : ℤ) (lo hi : ℕ) (hnd : pool.Nodup) (hlo : (lo : ℤ) ≤ k) (hhi : k ≤ (hi : ℤ))
    (hhiL : hi ≤ pool.length) :
    (weighted_sample_unique g n pool wm k).1.Nodup ∧
    lo ≤ (weighted_sample_unique g n pool wm k).1.length ∧
    (weighted_sample_unique g n pool wm k).1.length ≤ hi ∧
    ∀ x ∈ (weighted_sample_unique g n pool wm k).1, x ∈ pool := by
  obtain ⟨hnd2, hlen, hmem⟩ := weighted_sample_unique_len_mem g n pool wm k hnd
  have hcast : (hi : ℤ) ≤ (pool.length : ℤ) := by exact_mod_cast hhiL
  refine ⟨hnd2, ?_, ?_, hmem⟩ <;> omega

/-- The `herramientas` field is either exactly `["Ninguno"]` or 2-4
distinct non-`"Ninguno"` catalog tools. -/
theorem build_herramientas_spec (sqrtA : ℚ → ℚ) (g : ℕ → ℚ)
    (hg : ∀ n, 0 ≤ g n ∧ g n < 1)
    (hs : ∀ x, 0 ≤ x → x ≤ 1 → 0 ≤ sqrtA x ∧ sqrtA x ≤ 1) :
    (build_herramientas sqrtA g).1 = ["Ninguno"] ∨
    ((build_herramientas sqrtA g).1.Nodup ∧
      2 ≤ (build_herramientas sqrtA g).1.length ∧
      (build_herramientas sqrtA g).1.length ≤ 4 ∧
      ∀ x ∈ (build_herramientas sqrtA g).1, x ∈ OPTS_herramientas ∧ x ≠ "Ninguno") := by
  unfold build_herramientas
  by_cases hbr : g 1 < WEIGHTS_herramientas "Ninguno"
  · rw [if_pos hbr]
    exact Or.inl rfl
  · rw [if_neg hbr]
    right
    have hpoolnd : (OPTS_herramientas.filter (fun h => h ≠ "Ninguno")).Nodup := by decide
    obtain ⟨hk2, hkup⟩ := random_k_for_checkbox_bounds sqrtA g 2 2
      (min 4 (OPTS_herramientas.filter (fun h => h ≠ "Ninguno")).length)
      (by decide) (hg 2).1 (hg 2).2 hs
    have hminle : ((min 4 (OPTS_herramientas.filter (fun h => h ≠ "Ninguno")).length : ℕ) : ℤ)
        ≤ ((4 : ℕ) : ℤ) := by
      exact_mod_cast min_le_left 4 _
    obtain ⟨h1, h2, h3, h4⟩ := sample_between g
      (random_k_for_checkbox sqrtA g 2 2
        (min 4 (OPTS_herramientas.filter (fun h => h ≠ "Ninguno")).length)).2
      (OPTS_herramientas.filter (fun h => h ≠ "Ninguno")) WEIGHTS_herramientas
      (random_k_for_checkbox sqrtA g 2 2
        (min 4 (OPTS_herramientas.filter (fun h => h ≠ "Ninguno")).length)).1
      2 4 hpoolnd hk2 (le_trans hkup hminle) (by decide)
    exact ⟨h1, h2, h3, fun x hx =>
      ⟨(List.mem_filter.mp (h4 x hx)).1, by simpa using (List.mem_filter.mp (h4 x hx)).2⟩⟩

/-- The `so_virtualizados` field is either exactly
`["No uso virtualización"]` or 2-3 distinct catalog systems. -/
theorem build_so_virtualizados_spec (sqrtA : ℚ → ℚ) (g : ℕ → ℚ) (n2 : ℕ)
    (hg : ∀ n, 0 ≤ g n ∧ g n < 1)
    (hs : ∀ x, 0 ≤ x → x ≤ 1 → 0 ≤ sqrtA x ∧ sqrtA x ≤ 1) :
    (build_so_virtualizados sqrtA g n2).1 = ["No uso virtualización"] ∨
    ((build_so_virtualizados sqrtA g n2).1.Nodup ∧
      2 ≤ (build_so_virtualizados sqrtA g n2).1.length ∧
      (build_so_virtualizados sqrtA g n2).1.length ≤ 3 ∧
      ∀ x ∈ (build_so_virtualizados sqrtA g n2).1, x ∈ OPTS_so_virtualizados_main) := by
  unfold build_so_virtualizados
  by_cases hbr : g n2 < P_NO_VIRTUALIZA
  · rw [if_pos hbr]
    exact Or.inl rfl
  · rw [if_neg hbr]
    right
    have hpoolnd : OPTS_so_virtualizados_main.Nodup := by decide
    obtain ⟨hk2, hkup⟩ := random_k_for_checkbox_bounds sqrtA g (n2 + 1) 2
      (min 3 OPTS_so_virtualizados_main.length)
      (by decide) (hg (n2 + 1)).1 (hg (n2 + 1)).2 hs
    have hminle : ((min 3 OPTS_so_virtualizados_main.length : ℕ) : ℤ) ≤ ((3 : ℕ) : ℤ) := by
      exact_mod_cast min_le_left 3 _
    exact sample_between g
      (random_k_for_checkbox sqrtA g (n2 + 1) 2
        (min 3 OPTS_so_virtualizados_main.length)).2
      OPTS_so_virtualizados_main WEIGHTS_so_virtualizados_main
      (random_k_for_checkbox sqrtA g (n2 + 1) 2
        (min 3 OPTS_so_virtualizados_main.length)).1
      2 3 hpoolnd hk2 (le_trans hkup hminle) (by decide)

/-- The `impedimentos` field is always 2-3 distinct catalog impediments. -/
theorem build_impedimentos_spec (sqrtA : ℚ → ℚ) (g : ℕ → ℚ) (n3 : ℕ)
    (hg : ∀ n, 0 ≤ g n ∧ g n < 1)
    (hs : ∀ x, 0 ≤ x → x ≤ 1 → 0 ≤ sqrtA x ∧ sqrtA x ≤ 1) :
    (build_impedimentos sqrtA g n3).1.Nodup ∧
    2 ≤ (build_impedimentos sqrtA g n3).1.length ∧
    (build_impedimentos sqrtA g n3).1.length ≤ 3 ∧
    ∀ x ∈ (build_impedimentos sqrtA g n3).1, x ∈ OPTS_impedimentos_main := by
  unfold build_impedimentos
  have hpoolnd : OPTS_impedimentos_main.Nodup := by decide
  obtain ⟨hk2, hkup⟩ := random_k_for_checkbox_bounds sqrtA g n3 2
    (min 3 OPTS_impedimentos_main.length)
    (by decide) (hg n3).1 (hg n3).2 hs
  have hminle : ((min 3 OPTS_impedimentos_main.length : ℕ) : ℤ) ≤ ((3 : ℕ) : ℤ) := by
    exact_mod_cast min_le_left 3 _
  exact sample_between g
    (random_k_for_checkbox sqrtA g n3 2 (min 3 OPTS_impedimentos_main.length)).2
    OPTS_impedimentos_main WEIGHTS_impedimentos_main
    (random_k_for_checkbox sqrtA g n3 2 (min 3 OPTS_impedimentos_main.length)).1
    2 3 hpoolnd hk2 (le_trans hkup hminle) (by decide)

/-- C10: every document produced by `build_prob_answers` satisfies the
checkbox exclusivity-and-size invariant on page 1: `herramientas` is
either exactly `["Ninguno"]` or 2-4 distinct non-`"Ninguno"` catalog
tools; `so_virtualizados` is either exactly `["No uso virtualización"]`
or 2-3 distinct catalog systems; `impedimentos` is 2-3 distinct catalog
impediments — an exclusive option never co-occurs with another option. -/
theorem build_prob_answers_invariants (sqrtA : ℚ → ℚ) (g : ℕ → ℚ)
    (hg : ∀ n, 0 ≤ g n ∧ g n < 1)
    (hs : ∀ x, 0 ≤ x → x ≤ 1 → 0 ≤ sqrtA x ∧ sqrtA x ≤ 1) :
    (∃ h, (build_prob_answers sqrtA g).page1.herramientas = some h ∧
      (h = ["Ninguno"] ∨ (h.Nodup ∧ 2 ≤ h.length ∧ h.length ≤ 4 ∧
        ∀ x ∈ h, x ∈ OPTS_herramientas ∧ x ≠ "Ninguno"))) ∧
    (∃ so, (build_prob_answers sqrtA g).page1.so_virtualizados = some so ∧
      (so = ["No uso virtualización"] ∨ (so.Nodup ∧ 2 ≤ so.length ∧ so.length ≤ 3 ∧
        ∀ x ∈ so, x ∈ OPTS_so_virtualizados_main))) ∧
    (∃ imp, (build_prob_answers sqrtA g).page1.impedimentos = some imp ∧
      imp.Nodup ∧ 2 ≤ imp.length ∧ imp.length ≤ 3 ∧
      ∀ x ∈ imp, x ∈ OPTS_impedimentos_main) :=
  ⟨⟨(build_herramientas sqrtA g).1, rfl, build_herramientas_spec sqrtA g hg hs⟩,
   ⟨(build_so_virtualizados sqrtA g (build_herramientas sqrtA g).2).1, rfl,
     build_so_virtualizados_spec sqrtA g (build_herramientas sqrtA g).2 hg hs⟩,
   ⟨(build_impedimentos sqrtA g
       (build_so_virtualizados sqrtA g (build_herramientas sqrtA g).2).2).1, rfl,
     build_impedimentos_spec sqrtA g
       (build_so_virtualizados sqrtA g (build_herramientas sqrtA g).2).2 hg hs⟩⟩

/-- Witness for C10: the zero stream and the zero square-root oracle
satisfy the draw-domain hypotheses, so the invariant holds of the concrete
document they generate. -/
theorem build_prob_answers_invariants_witness :
    ((∀ n : ℕ, (0 : ℚ) ≤ (fun _ => 0 : ℕ → ℚ) n ∧ (fun _ => 0 : ℕ → ℚ) n < 1) ∧
      (∀ x : ℚ, 0 ≤ x → x ≤ 1 →
        (0 : ℚ) ≤ (fun _ => 0 : ℚ → ℚ) x ∧ (fun _ => 0 : ℚ → ℚ) x ≤ 1)) ∧
    ((∃ h, (build_prob_answers (fun _ => 0) (fun _ => 0)).page1.herramientas = some h ∧
      (h = ["Ninguno"] ∨ (h.Nodup ∧ 2 ≤ h.length ∧ h.length ≤ 4 ∧
        ∀ x ∈ h, x ∈ OPTS_herramientas ∧ x ≠ "Ninguno"))) ∧
    (∃ so, (build_prob_answers (fun _ => 0) (fun _ => 0)).page1.so_virtualizados = some so ∧
      (so = ["No uso virtualización"] ∨ (so.Nodup ∧ 2 ≤ so.length ∧ so.length ≤ 3 ∧
        ∀ x ∈ so, x ∈ OPTS_so_virtualizados_main))) ∧
    (∃ imp, (build_prob_answers (fun _ => 0) (fun _ => 0)).page1.impedimentos = some imp ∧
      imp.Nodup ∧ 2 ≤ imp.length ∧ imp.length ≤ 3 ∧
      ∀ x ∈ imp, x ∈ OPTS_impedimentos_main)) :=
  ⟨⟨fun _ => ⟨le_refl 0, by norm_num⟩, fun _ h0 _ => ⟨le_refl 0, by norm_num⟩⟩,
   build_prob_answers_invariants (fun _ => 0) (fun _ => 0)
     (fun _ => ⟨le_refl 0, by norm_num⟩) (fun _ h0 _ => ⟨le_refl 0, by norm_num⟩)⟩

end FormBot
